import Mathlib

/-!
# Feed reconciliation of the Demo-Client social-feed app

Shallow embedding of the client-side feed synchronization logic of the
repository: the push-event reconciliation handlers and the page-merge of
`src/pages/Dashboard.jsx`, the profile-screen handlers of
`src/pages/Profile.jsx`, and the post-edit guard of
`src/components/PostCard.jsx`.  Lists model the React `posts` state
(newest-first); JS string identifiers are Lean `String`s, and optional /
missing JS object fields are `Option`s.
-/

set_option autoImplicit false

namespace DemoClient

/-- A post record as stored in the `posts` list state: a string identifier
`_id` and its textual content.  (Other fields of the JS object — user,
media URLs, timestamps — do not take part in the reconciliation logic and
are elided.) -/
structure Post where
  _id : String
  content : String
  deriving DecidableEq, Repr

/-- Here `hasId l id` is the JS `l.some ((p) => p._id === id)`: whether some
entry of the list carries the identifier. -/
def hasId (l : List Post) (id : String) : Bool :=
  l.any fun p => p._id == id

/-- Number of entries of the list carrying the identifier. -/
def countId (l : List Post) (id : String) : Nat :=
  (l.filter fun p => p._id == id).length

/-- The list is deduplicated by identifier. -/
def nodupIds (l : List Post) : Prop :=
  (l.map Post._id).Nodup

instance (l : List Post) : Decidable (nodupIds l) := by
  unfold nodupIds; infer_instance

/-- Body of `Dashboard.jsx` `handlePostCreated` (lines 193–199): inside
`setPosts`, return `prev` unchanged when `prev.some((p) => p._id === post._id)`,
else prepend `[post, ...prev]`. -/
def handlePostCreated (post : Post) (prev : List Post) : List Post :=
  if prev.any (fun p => p._id == post._id) then prev
  else post :: prev

/-- Body of `Dashboard.jsx` `handlePostUpdated` (lines 212–214):
`prev.map((p) => (p._id === updatedPost._id ? updatedPost : p))`. -/
def handlePostUpdated (updatedPost : Post) (prev : List Post) : List Post :=
  prev.map fun p => if p._id == updatedPost._id then updatedPost else p

/-- Body of `Dashboard.jsx` `handlePostDeleted` (line 229):
`prev.filter((p) => p._id !== postId)`. -/
def handlePostDeleted (postId : String) (prev : List Post) : List Post :=
  prev.filter fun p => p._id != postId

/-- A push event as delivered by the socket, already validated (the payload
carries an identifier). -/
inductive PushEvent where
  | created (post : Post)
  | updated (post : Post)
  | deleted (id : String)
  deriving DecidableEq, Repr

/-- Apply one push event to the list, as the Dashboard socket handlers do. -/
def applyEvent (l : List Post) : PushEvent → List Post
  | .created p => handlePostCreated p l
  | .updated p => handlePostUpdated p l
  | .deleted i => handlePostDeleted i l

/-- Apply a sequence of push events in delivery order. -/
def applyEvents (l : List Post) (es : List PushEvent) : List Post :=
  es.foldl applyEvent l

/-- The `Dashboard.jsx` `fetchPosts` page-advance merge (lines 86–91): collect
the identifiers already present, keep only the fetched posts with a fresh
identifier, and append them:
`const existingIds = new Set(prev.map((p) => p._id));`
`const uniqueNewPosts = newPosts.filter((p) => !existingIds.has(p._id));`
`return [...prev, ...uniqueNewPosts];`. -/
def mergePage (prev newPosts : List Post) : List Post :=
  prev ++ newPosts.filter fun p => !(hasId prev p._id)

example : handlePostCreated ⟨"a", "x"⟩ [⟨"a", "y"⟩] = [⟨"a", "y"⟩] := by decide
example : handlePostCreated ⟨"a", "x"⟩ [⟨"b", "y"⟩] = [⟨"a", "x"⟩, ⟨"b", "y"⟩] := by decide
example : mergePage [⟨"a", "x"⟩] [⟨"a", "z"⟩, ⟨"b", "y"⟩] = [⟨"a", "x"⟩, ⟨"b", "y"⟩] := by
  decide

/-! ## Basic lemmas about the handlers -/

theorem hasId_iff {l : List Post} {id : String} :
    hasId l id = true ↔ ∃ p ∈ l, p._id = id := by
  simp [hasId, List.any_eq_true, beq_iff_eq]

theorem hasId_false_iff {l : List Post} {id : String} :
    hasId l id = false ↔ ∀ p ∈ l, p._id ≠ id := by
  rw [← Bool.not_eq_true, hasId_iff]
  push_neg
  rfl

theorem map_id_handlePostUpdated (p : Post) (l : List Post) :
    (handlePostUpdated p l).map Post._id = l.map Post._id := by
  induction l with
  | nil => rfl
  | cons q t ih =>
    by_cases h : q._id = p._id <;>
      simp [handlePostUpdated, h, List.map_cons] at ih ⊢ <;> exact ih

theorem nodupIds_handlePostCreated (p : Post) (l : List Post) (h : nodupIds l) :
    nodupIds (handlePostCreated p l) := by
  unfold handlePostCreated
  split
  · exact h
  · next hn =>
    unfold nodupIds at h ⊢
    rw [List.map_cons, List.nodup_cons]
    refine ⟨?_, h⟩
    intro hmem
    rcases List.mem_map.mp hmem with ⟨q, hq, hid⟩
    exact hn (List.any_eq_true.mpr ⟨q, hq, beq_iff_eq.mpr hid⟩)

theorem nodupIds_handlePostUpdated (p : Post) (l : List Post) (h : nodupIds l) :
    nodupIds (handlePostUpdated p l) := by
  unfold nodupIds at h ⊢
  rw [map_id_handlePostUpdated]
  exact h

theorem nodupIds_handlePostDeleted (id : String) (l : List Post) (h : nodupIds l) :
    nodupIds (handlePostDeleted id l) := by
  unfold nodupIds at h ⊢
  exact ((List.filter_sublist l).map Post._id).nodup h

theorem nodupIds_applyEvent (l : List Post) (e : PushEvent) (h : nodupIds l) :
    nodupIds (applyEvent l e) := by
  cases e with
  | created p => exact nodupIds_handlePostCreated p l h
  | updated p => exact nodupIds_handlePostUpdated p l h
  | deleted i => exact nodupIds_handlePostDeleted i l h

theorem nodupIds_applyEvents (l : List Post) (es : List PushEvent) (h : nodupIds l) :
    nodupIds (applyEvents l es) := by
  induction es generalizing l with
  | nil => exact h
  | cons e t ih => exact ih (applyEvent l e) (nodupIds_applyEvent l e h)

theorem hasId_handlePostCreated_self (p : Post) (l : List Post) :
    hasId (handlePostCreated p l) p._id = true := by
  unfold handlePostCreated
  split
  · next h => exact h
  · exact hasId_iff.mpr ⟨p, List.mem_cons_self _ _, rfl⟩

theorem hasId_handlePostCreated_mono (p : Post) (l : List Post) (id : String)
    (h : hasId l id = true) : hasId (handlePostCreated p l) id = true := by
  unfold handlePostCreated
  split
  · exact h
  · rcases hasId_iff.mp h with ⟨q, hq, hid⟩
    exact hasId_iff.mpr ⟨q, List.mem_cons_of_mem _ hq, hid⟩

theorem countId_eq_one (l : List Post) (id : String)
    (hn : nodupIds l) (h : hasId l id = true) : countId l id = 1 := by
  induction l with
  | nil => simp [hasId] at h
  | cons q t ih =>
    have hn' : nodupIds t := by
      unfold nodupIds at hn ⊢
      exact (List.nodup_cons.mp hn).2
    by_cases hq : q._id = id
    · have hnot : ∀ p ∈ t, ¬(p._id == id) = true := by
        intro p hp hbeq
        have : q._id ∈ t.map Post._id := by
          rw [hq, ← beq_iff_eq.mp hbeq]
          exact List.mem_map.mpr ⟨p, hp, rfl⟩
        exact (List.nodup_cons.mp hn).1 this
      unfold countId
      rw [List.filter_cons, if_pos (beq_iff_eq.mpr hq),
        List.filter_eq_nil_iff.mpr hnot]
      rfl
    · have ht : hasId t id = true := by
        rcases hasId_iff.mp h with ⟨p, hp, hid⟩
        rcases List.mem_cons.mp hp with rfl | hp'
        · exact absurd hid hq
        · exact hasId_iff.mpr ⟨p, hp', hid⟩
      unfold countId
      rw [List.filter_cons, if_neg (by simp [hq])]
      exact ih hn' ht

/-! ## C1: push-created deduplication -/

theorem hasId_applyCreated_mono (ps : List Post) (l : List Post) (id : String)
    (h : hasId l id = true) :
    hasId (applyEvents l (ps.map PushEvent.created)) id = true := by
  induction ps generalizing l with
  | nil => exact h
  | cons q t ih =>
    unfold applyEvents at ih ⊢
    rw [List.map_cons, List.foldl_cons]
    exact ih _ (hasId_handlePostCreated_mono q l id h)

theorem hasId_applyCreated_of_mem (l : List Post) (ps : List Post) (p : Post)
    (hp : p ∈ ps) :
    hasId (applyEvents l (ps.map PushEvent.created)) p._id = true := by
  induction ps generalizing l with
  | nil => cases hp
  | cons q t ih =>
    unfold applyEvents at ih ⊢
    rw [List.map_cons, List.foldl_cons]
    rcases List.mem_cons.mp hp with rfl | hp'
    · exact hasId_applyCreated_mono t _ _ (hasId_handlePostCreated_self p l)
    · exact ih _ hp'

/-- C1: a push `created` event whose identifier is already present leaves the
list unchanged, an absent identifier is prepended, and consequently any
sequence of `created` events applied to an identifier-distinct list yields a
list containing each pushed identifier exactly once. -/
theorem created_events_dedup (post : Post) (prev : List Post)
    (l : List Post) (ps : List Post) (hl : nodupIds l) :
    (hasId prev post._id = true → handlePostCreated post prev = prev) ∧
    (hasId prev post._id = false → handlePostCreated post prev = post :: prev) ∧
    (∀ p ∈ ps, countId (applyEvents l (ps.map PushEvent.created)) p._id = 1) := by
  refine ⟨?_, ?_, ?_⟩
  · intro h
    unfold hasId at h
    unfold handlePostCreated
    rw [if_pos h]
  · intro h
    unfold hasId at h
    unfold handlePostCreated
    rw [if_neg (by simp [h])]
  · intro p hp
    refine countId_eq_one _ _ ?_ (hasId_applyCreated_of_mem l ps p hp)
    exact nodupIds_applyEvents l _ hl

/-- Witness for `created_events_dedup`: pushing two posts with the same
identifier `"a"` onto `[⟨"b", "y"⟩]` leaves exactly one entry with
identifier `"a"`. -/
theorem created_events_dedup_witness :
    countId (applyEvents [⟨"b", "y"⟩]
      ([⟨"a", "x"⟩, ⟨"a", "z"⟩].map PushEvent.created)) "a" = 1 :=
  (created_events_dedup ⟨"a", "x"⟩ [] [⟨"b", "y"⟩] [⟨"a", "x"⟩, ⟨"a", "z"⟩]
    (by decide)).2.2 ⟨"a", "x"⟩ (by decide)

/-! ## C7: push-updated replacement -/

theorem handlePostUpdated_of_absent (p : Post) (l : List Post)
    (h : ∀ q ∈ l, q._id ≠ p._id) : handlePostUpdated p l = l := by
  induction l with
  | nil => rfl
  | cons q t ih =>
    unfold handlePostUpdated at ih ⊢
    rw [List.map_cons,
      if_neg (by simp [beq_iff_eq]; exact h q (List.mem_cons_self _ _)),
      ih (fun r hr => h r (List.mem_cons_of_mem _ hr))]

/-- C7: a push `updated` event replaces, position by position, exactly the
entries carrying the event's identifier by the updated post (which carries
that same identifier), and is a no-op when the identifier is absent. -/
theorem updated_replaces_in_place (updatedPost : Post) (prev : List Post) :
    (∀ i : Nat, (handlePostUpdated updatedPost prev)[i]? =
      (prev[i]?).map fun q => if q._id = updatedPost._id then updatedPost else q) ∧
    (hasId prev updatedPost._id = false → handlePostUpdated updatedPost prev = prev) := by
  constructor
  · intro i
    unfold handlePostUpdated
    rw [List.getElem?_map]
    cases prev[i]? with
    | none => rfl
    | some q =>
      by_cases h : q._id = updatedPost._id <;> simp [h]
  · intro h
    exact handlePostUpdated_of_absent updatedPost prev (hasId_false_iff.mp h)

/-- Witness for `updated_replaces_in_place`: updating an absent identifier
`"c"` leaves `[⟨"a", "x"⟩, ⟨"b", "y"⟩]` unchanged. -/
theorem updated_replaces_in_place_witness :
    handlePostUpdated ⟨"c", "z"⟩ [⟨"a", "x"⟩, ⟨"b", "y"⟩] = [⟨"a", "x"⟩, ⟨"b", "y"⟩] :=
  (updated_replaces_in_place ⟨"c", "z"⟩ [⟨"a", "x"⟩, ⟨"b", "y"⟩]).2 (by decide)

/-! ## C8: push-deleted removal -/

/-- C8: a push `deleted` event removes exactly the entries carrying the
identifier, keeping the remaining entries in order (the result is a sublist
of the input), and is a no-op when the identifier is absent. -/
theorem deleted_removes (postId : String) (prev : List Post) :
    (handlePostDeleted postId prev).Sublist prev ∧
    (∀ q, q ∈ handlePostDeleted postId prev ↔ q ∈ prev ∧ q._id ≠ postId) ∧
    (hasId prev postId = false → handlePostDeleted postId prev = prev) := by
  refine ⟨List.filter_sublist prev, ?_, ?_⟩
  · intro q
    unfold handlePostDeleted
    simp [List.mem_filter, bne_iff_ne]
  · intro h
    have h' := hasId_false_iff.mp h
    unfold handlePostDeleted
    rw [List.filter_eq_self]
    intro q hq
    simp [bne_iff_ne]
    exact h' q hq

/-- Witness for `deleted_removes`: deleting an absent identifier `"c"`
leaves `[⟨"a", "x"⟩]` unchanged. -/
theorem deleted_removes_witness :
    handlePostDeleted "c" [⟨"a", "x"⟩] = [⟨"a", "x"⟩] :=
  (deleted_removes "c" [⟨"a", "x"⟩]).2.2 (by decide)

/-! ## C2: page-advance merge -/

theorem mergePage_nodupIds (prev page : List Post)
    (h1 : nodupIds prev) (h2 : nodupIds page) :
    nodupIds (mergePage prev page) := by
  unfold mergePage nodupIds at *
  rw [List.map_append, List.nodup_append]
  refine ⟨h1, ((List.filter_sublist page).map Post._id).nodup h2, ?_⟩
  intro id hid1 hid2
  rcases List.mem_map.mp hid2 with ⟨p, hp, rfl⟩
  have h3 : hasId prev p._id = false := by
    simpa using (List.mem_filter.mp hp).2
  rcases List.mem_map.mp hid1 with ⟨q, hq, hqid⟩
  exact hasId_false_iff.mp h3 q hq hqid

/-- C2 (amended): the page-advance merge appends only those fetched posts
whose identifier is absent from the list at apply time, and therefore never
introduces a duplicate identifier, whatever push events ran between fetch
start and apply — provided the fetched page is itself identifier-distinct.
(The original claim's further assertion that a post deleted between fetch
start and apply is never resurrected is refuted by
`pageMerge_resurrects_deleted`.) -/
theorem pageMerge_no_duplicates (l : List Post) (es : List PushEvent)
    (page : List Post) (hl : nodupIds l) (hpage : nodupIds page) :
    nodupIds (mergePage (applyEvents l es) page) ∧
    ∀ q ∈ mergePage (applyEvents l es) page,
      q ∈ applyEvents l es ∨
        (q ∈ page ∧ hasId (applyEvents l es) q._id = false) := by
  constructor
  · exact mergePage_nodupIds _ _ (nodupIds_applyEvents l es hl) hpage
  · intro q hq
    unfold mergePage at hq
    rcases List.mem_append.mp hq with h | h
    · exact Or.inl h
    · have hf := List.mem_filter.mp h
      exact Or.inr ⟨hf.1, by simpa using hf.2⟩

/-- Witness for `pageMerge_no_duplicates`: a page repeating an existing
identifier, merged after an interleaved push, still yields distinct
identifiers. -/
theorem pageMerge_no_duplicates_witness :
    nodupIds (mergePage (applyEvents [⟨"a", "x"⟩] [PushEvent.created ⟨"b", "y"⟩])
      [⟨"a", "x"⟩, ⟨"c", "z"⟩]) :=
  (pageMerge_no_duplicates [⟨"a", "x"⟩] [PushEvent.created ⟨"b", "y"⟩]
    [⟨"a", "x"⟩, ⟨"c", "z"⟩] (by decide) (by decide)).1

/-- Counterexample to C2 as stated: the list at fetch start is
`[⟨"b", "y"⟩]` and the in-flight page also contains post `"b"`; a push
`deleted` event for `"b"` arrives before the page is applied, so at apply
time `"b"` is absent from the list — and the merge therefore re-appends
(resurrects) the deleted post. -/
theorem pageMerge_resurrects_deleted :
    hasId (applyEvents [⟨"b", "y"⟩] [PushEvent.deleted "b"]) "b" = false ∧
    hasId (mergePage (applyEvents [⟨"b", "y"⟩] [PushEvent.deleted "b"])
      [⟨"b", "y"⟩]) "b" = true := by
  decide

/-! ## The Dashboard feed state

The React state of `Dashboard.jsx` (lines 47–58): `posts`, `page`,
`loading`, `hasMore`, `initialLoad`, `error`, `retryCount`, and the
`fetchingRef` in-flight guard. -/

structure FeedState where
  posts : List Post
  page : Nat
  loading : Bool
  hasMore : Bool
  initialLoad : Bool
  error : Option String
  retryCount : Nat
  fetching : Bool
  deriving DecidableEq, Repr

/-- The `useState` initial values of `Dashboard.jsx` (lines 47–58). -/
def initialFeedState : FeedState :=
  { posts := [], page := 1, loading := false, hasMore := true,
    initialLoad := true, error := none, retryCount := 0, fetching := false }

/-- Entry of `fetchPosts` (lines 63–70): bail out if a fetch is in flight,
otherwise mark in flight, set loading, clear the error. -/
def fetchStart (s : FeedState) : FeedState :=
  if s.fetching then s
  else { s with fetching := true, loading := true, error := none }

/-- Success path of `fetchPosts` (lines 83–98 plus the `finally`): merge for a
page advance (`shouldAppend && pageNum > 1`), wholesale replace otherwise;
`setHasMore(newPosts.length >= 10)`; clear `initialLoad`, `retryCount`,
`loading` and the in-flight guard. -/
def fetchSuccess (s : FeedState) (pageNum : Nat) (shouldAppend : Bool)
    (newPosts : List Post) : FeedState :=
  { s with
    posts :=
      if shouldAppend && decide (pageNum > 1) then mergePage s.posts newPosts
      else newPosts,
    hasMore := decide (newPosts.length ≥ 10),
    initialLoad := false,
    retryCount := 0,
    loading := false,
    fetching := false }

/-- Catch path of `fetchPosts` (lines 99–107 plus the `finally`): record the
error message, `setHasMore(false)`, clear `loading` and the in-flight
guard — the `posts` state is not touched. -/
def fetchFailure (s : FeedState) (msg : String) : FeedState :=
  { s with
    error := some msg,
    hasMore := false,
    loading := false,
    fetching := false }

/-- The auth-error branch of the catch (Dashboard lines 109–114, and
identically Profile lines 126–131): whether the cached credential is
removed from local storage and after how many milliseconds the redirect to
`/login` is scheduled. -/
structure AuthEffects where
  tokenCleared : Bool
  redirectDelayMs : Option Nat
  deriving DecidableEq, Repr

/-- The branch `if (err.response?.status === 401 || err.response?.status === 403)`:
`localStorage.removeItem("authToken")` and a redirect scheduled after
2000 ms.  `status = none` models a response-less failure (network error or
timeout). -/
def authFailureEffects (status : Option Nat) : AuthEffects :=
  if status = some 401 ∨ status = some 403 then
    { tokenCleared := true, redirectDelayMs := some 2000 }
  else
    { tokenCleared := false, redirectDelayMs := none }

/-- The infinite-scroll observer effect guard (Dashboard line 137): the
observer is attached only when not loading, more pages remain, the initial
load is done, and a last post exists to observe. -/
def observerAttached (s : FeedState) : Bool :=
  !s.loading && s.hasMore && !s.initialLoad && decide (s.posts.length > 0)

/-- The observer callback (lines 145–148): on intersection, with
`hasMore && !loading && !fetchingRef.current`, increment the page —
which is what makes the `page > 1` effect (lines 171–175) issue the
next-page pull-fetch. -/
def observerFire (s : FeedState) (isIntersecting : Bool) : FeedState :=
  if observerAttached s && isIntersecting && s.hasMore && !s.loading &&
      !s.fetching then
    { s with page := s.page + 1 }
  else s

/-- The error affordances of the Dashboard render (lines 270–295 and
384–401): a full-screen retry view when `error && posts.length === 0 &&
!loading`, an inline "load more" retry block when `error` with a nonempty
list. -/
inductive ErrorUI where
  | fullScreenRetry
  | inlineLoadMoreRetry
  | none
  deriving DecidableEq, Repr

def errorUI (s : FeedState) : ErrorUI :=
  if s.error.isSome && decide (s.posts.length = 0) && !s.loading then
    .fullScreenRetry
  else if s.error.isSome && decide (s.posts.length > 0) then
    .inlineLoadMoreRetry
  else .none

/-! ## C3: short page ends the feed -/

/-- C3: a fetched page shorter than the page size (10) sets
`hasMore = false`, and in any state with `hasMore = false` the observer
does not fire, so the page is never incremented and no next-page
pull-fetch is issued. -/
theorem short_page_sets_no_more (s t : FeedState) (pageNum : Nat)
    (shouldAppend : Bool) (newPosts : List Post) (isIntersecting : Bool) :
    (newPosts.length < 10 →
      (fetchSuccess s pageNum shouldAppend newPosts).hasMore = false) ∧
    (t.hasMore = false → observerFire t isIntersecting = t ∧
      (observerFire t isIntersecting).page = t.page) := by
  constructor
  · intro h
    simp only [fetchSuccess, decide_eq_false_iff_not]
    omega
  · intro h
    have : (observerAttached t && isIntersecting && t.hasMore && !t.loading &&
        !t.fetching) = false := by
      simp [h]
    unfold observerFire
    rw [if_neg (by simp [this])]
    exact ⟨rfl, rfl⟩

/-- Witness for `short_page_sets_no_more`: an empty page flips `hasMore`
off, and with `hasMore` off the observer leaves the state alone. -/
theorem short_page_sets_no_more_witness :
    (fetchSuccess initialFeedState 1 false []).hasMore = false ∧
    observerFire (fetchSuccess initialFeedState 1 false []) true =
      fetchSuccess initialFeedState 1 false [] :=
  ⟨(short_page_sets_no_more initialFeedState (fetchSuccess initialFeedState 1
      false []) 1 false [] true).1 (by decide),
   ((short_page_sets_no_more initialFeedState (fetchSuccess initialFeedState 1
      false []) 1 false [] true).2 (by decide)).1⟩

/-! ## C4: failed pull-fetch never mutates the list -/

/-- C4: a failed pull-fetch leaves `posts` untouched; when the list was
empty (failed initial load) it stays empty and the full-screen retryable
error view is shown; when posts were already loaded (failed page advance)
they are all preserved and the inline load-more retry affordance is
shown. -/
theorem failed_fetch_preserves_posts (s : FeedState) (msg : String) :
    (fetchFailure s msg).posts = s.posts ∧
    (s.posts = [] → (fetchFailure s msg).posts = [] ∧
      errorUI (fetchFailure s msg) = .fullScreenRetry) ∧
    (s.posts ≠ [] → errorUI (fetchFailure s msg) = .inlineLoadMoreRetry) := by
  refine ⟨rfl, ?_, ?_⟩
  · intro h
    refine ⟨by simp [fetchFailure, h], ?_⟩
    simp [errorUI, fetchFailure, h]
  · intro h
    have hp : 0 < s.posts.length := List.length_pos.mpr h
    have hz : ¬s.posts.length = 0 := by omega
    simp [errorUI, fetchFailure, hz, hp]

/-- Witness for `failed_fetch_preserves_posts`: a failed initial load keeps
the list empty behind a full-screen retry; a failed page advance keeps the
loaded post behind an inline retry. -/
theorem failed_fetch_preserves_posts_witness :
    ((fetchFailure initialFeedState "network error").posts = [] ∧
      errorUI (fetchFailure initialFeedState "network error") =
        .fullScreenRetry) ∧
    errorUI (fetchFailure { initialFeedState with posts := [⟨"a", "x"⟩] }
      "network error") = .inlineLoadMoreRetry :=
  ⟨(failed_fetch_preserves_posts initialFeedState "network error").2.1 rfl,
   (failed_fetch_preserves_posts { initialFeedState with posts := [⟨"a", "x"⟩] }
      "network error").2.2 (by decide)⟩

/-! ## C9: 401/403 is the sole forced-logout trigger -/

/-- C9: the cached credential is cleared and the delayed redirect to the
login screen is scheduled exactly when the pull-fetch failed with status
401 or 403; no other status (and no response-less network failure)
triggers either effect. -/
theorem auth_error_forces_logout (status : Option Nat) :
    ((authFailureEffects status).tokenCleared = true ↔
      (status = some 401 ∨ status = some 403)) ∧
    ((authFailureEffects status).redirectDelayMs = some 2000 ↔
      (status = some 401 ∨ status = some 403)) := by
  by_cases h : status = some 401 ∨ status = some 403 <;>
    simp [authFailureEffects, h]

/-- Witness for `auth_error_forces_logout`: a 403 clears the credential, a
plain 500 does not. -/
theorem auth_error_forces_logout_witness :
    (authFailureEffects (some 403)).tokenCleared = true ∧
    (authFailureEffects (some 500)).tokenCleared = false :=
  ⟨(auth_error_forces_logout (some 403)).1.mpr (Or.inr rfl),
   Bool.eq_false_iff.mpr fun h => by
    rcases (auth_error_forces_logout (some 500)).1.mp h with h' | h' <;>
      simp at h'⟩

/-! ## C6: push events versus the initial load -/

/-- The socket subscription effect (Dashboard lines 178–244) is installed
on mount with no dependency on the load state: a push event is applied to
`posts` by the handlers in whatever state the feed is. -/
def applyPush (s : FeedState) (e : PushEvent) : FeedState :=
  { s with posts := applyEvent s.posts e }

/-- An event of the mounted Dashboard: a socket push, or the resolution of
the initial load (`fetchPosts(1, false)`, wholesale replace). -/
inductive SysEvent where
  | push (e : PushEvent)
  | initialLoadSuccess (newPosts : List Post)

def sysStep (s : FeedState) : SysEvent → FeedState
  | .push e => applyPush s e
  | .initialLoadSuccess newPosts => fetchSuccess s 1 false newPosts

def sysRun (s : FeedState) (es : List SysEvent) : FeedState :=
  es.foldl sysStep s

theorem sysRun_pushes_posts (s : FeedState) (es : List PushEvent) :
    (sysRun s (es.map SysEvent.push)).posts = applyEvents s.posts es := by
  induction es generalizing s with
  | nil => rfl
  | cons e t ih =>
    unfold sysRun applyEvents at ih ⊢
    rw [List.map_cons, List.foldl_cons, List.foldl_cons]
    exact ih (applyPush s e)

/-- Counterexample to C6 as stated: in the `Loading(initial)` state (a
fetch started from the initial state, `initialLoad = true`,
`loading = true`) a push `created` event does mutate the post list. -/
theorem push_mutates_before_initial_load :
    (fetchStart initialFeedState).initialLoad = true ∧
    (fetchStart initialFeedState).loading = true ∧
    (applyPush (fetchStart initialFeedState)
        (.created ⟨"a", "x"⟩)).posts ≠ (fetchStart initialFeedState).posts := by
  decide

/-- C6 (amended): push events are applied to the list in every state,
including before the initial load completes; but the initial load's
wholesale replace discards whatever those early pushes did, so after any
run `pre-pushes; initial-load(P); post-pushes` the list is exactly the
post-pushes applied to the fetched page `P` — every push after the initial
load completes is applied, and none from before it survives. -/
theorem push_events_always_applied (s : FeedState) (e : PushEvent)
    (pre post : List PushEvent) (newPosts : List Post) :
    (applyPush s e).posts = applyEvent s.posts e ∧
    (sysRun s (pre.map SysEvent.push ++
        SysEvent.initialLoadSuccess newPosts :: post.map SysEvent.push)).posts
      = applyEvents newPosts post := by
  refine ⟨rfl, ?_⟩
  unfold sysRun
  rw [List.foldl_append, List.foldl_cons]
  have hload : (sysStep (List.foldl sysStep s (pre.map SysEvent.push))
      (.initialLoadSuccess newPosts)).posts = newPosts := rfl
  have := sysRun_pushes_posts
    (sysStep (sysRun s (pre.map SysEvent.push)) (.initialLoadSuccess newPosts))
    post
  unfold sysRun at this
  rw [this, hload]

/-! ## C5: malformed push payloads

The payloads the socket delivers are arbitrary JS values: `null` or
`undefined`, or objects any of whose fields may be missing.  `PPost`
models such an object (`none` = field absent); `Payload` and
`DeletePayload` model the raw argument of the handlers. -/

structure PPost where
  _id : Option String
  content : String
  userUid : Option String
  deriving DecidableEq, Repr

inductive Payload where
  | null
  | obj (post : PPost)
  deriving DecidableEq, Repr

/-- A `post:deleted` payload: the server may send the post object or a
bare identifier string (Dashboard line 222 handles both:
`const postId = data?._id || data;`). -/
inductive DeletePayload where
  | null
  | str (s : String)
  | obj (id : Option String)
  deriving DecidableEq, Repr

/-- JS falsiness of an `_id` field: missing (`undefined`) or `""`. -/
def idFalsy : Option String → Bool
  | none => true
  | some s => s == ""

/-- A payload the spec calls malformed: `null`, or its identifier missing
(the empty string is likewise falsy under the guard `!post._id`). -/
def malformedPayload : Payload → Bool
  | .null => true
  | .obj p => idFalsy p._id

def malformedDeletePayload : DeletePayload → Bool
  | .null => true
  | .str s => s == ""
  | .obj id => idFalsy id

/-- Dashboard `handlePostCreated` at payload level (lines 186–203): the
guard `if (!post || !post._id) { console.warn(...); return; }` drops
malformed payloads; otherwise the list-level prepend runs.  The body never
throws (and is wrapped in `try`/`catch` besides), so the result is always
`.ok`. -/
def onPostCreated (payload : Payload) (prev : List Post) :
    Except String (List Post) :=
  match payload with
  | .null => .ok prev
  | .obj p =>
    match p._id with
    | none => .ok prev
    | some id =>
      if id = "" then .ok prev
      else .ok (handlePostCreated ⟨id, p.content⟩ prev)

/-- Dashboard `handlePostUpdated` at payload level (lines 205–218): guard
`if (!updatedPost || !updatedPost._id) return;`, then the list-level
replace. -/
def onPostUpdated (payload : Payload) (prev : List Post) :
    Except String (List Post) :=
  match payload with
  | .null => .ok prev
  | .obj p =>
    match p._id with
    | none => .ok prev
    | some id =>
      if id = "" then .ok prev
      else .ok (handlePostUpdated ⟨id, p.content⟩ prev)

/-- Dashboard `handlePostDeleted` at payload level (lines 220–233):
`const postId = data?._id || data; if (!postId) return;` — a `null`
payload and a bare `""` are dropped; an object without a truthy `_id`
makes `postId` the object itself, which compares unequal (`!==`) to every
string `_id`, so the filter keeps everything. -/
def onPostDeleted (data : DeletePayload) (prev : List Post) :
    Except String (List Post) :=
  match data with
  | .null => .ok prev
  | .str s => if s = "" then .ok prev else .ok (handlePostDeleted s prev)
  | .obj oid =>
    match oid with
    | none => .ok prev
    | some id => if id = "" then .ok prev else .ok (handlePostDeleted id prev)

namespace Profile

/-- The `Profile.jsx` `handlePostCreated` (lines 153–157): no validation.  On a
`null` payload the access `post.user` throws a `TypeError`; otherwise the
payload (well-formed or not) is prepended whenever its owner matches the
profile user and its identifier is not already present
(`prev.some((p) => p._id === post._id)` — `undefined === undefined` holds,
matching `Option` equality on missing ids). -/
def handlePostCreatedOnSocket (payload : Payload) (userUid : String)
    (prev : List PPost) : Except String (List PPost) :=
  match payload with
  | .null => .error "TypeError: cannot read user of null"
  | .obj p =>
    if p.userUid = some userUid then
      .ok (if prev.any (fun q => q._id == p._id) then prev else p :: prev)
    else .ok prev

/-- The `Profile.jsx` `handlePostUpdated` (lines 159–163): same owner guard, no
validation, list-level replace. -/
def handlePostUpdatedOnSocket (payload : Payload) (userUid : String)
    (prev : List PPost) : Except String (List PPost) :=
  match payload with
  | .null => .error "TypeError: cannot read user of null"
  | .obj p =>
    if p.userUid = some userUid then
      .ok (prev.map fun q => if q._id == p._id then p else q)
    else .ok prev

/-- The `Profile.jsx` `handlePostDeleted` (lines 165–167):
`({ _id }) => setPosts((prev) => prev.filter((p) => p._id !== _id))` — the
parameter destructuring itself throws a `TypeError` on a `null` payload. -/
def handlePostDeletedOnSocket (payload : Payload) (prev : List PPost) :
    Except String (List PPost) :=
  match payload with
  | .null => .error "TypeError: cannot destructure null"
  | .obj p => .ok (prev.filter fun q => q._id != p._id)

end Profile

/-- Counterexample to C5 as stated: the profile screen's `post:created`
handler does not validate its payload — on a `null` payload it throws a
`TypeError` (accessing `post.user`) instead of dropping the event. -/
theorem profile_created_throws_on_null :
    Profile.handlePostCreatedOnSocket Payload.null "u1"
        [⟨some "a", "x", some "u1"⟩] =
      Except.error "TypeError: cannot read user of null" := rfl

/-- C5 (amended): on the feed screen every handler (created, updated,
deleted) drops a malformed payload — `null` or with a missing/falsy
identifier — without mutating the list and without throwing; the profile
screen's handlers do not validate: a `null` payload makes each of the
three throw a `TypeError`, and a created payload missing its identifier is
even prepended when its owner matches the profile user (and no
identifier-less entry is present yet). -/
theorem malformed_payloads (payload : Payload) (d : DeletePayload)
    (prev : List Post) (pprev : List PPost) (u content : String)
    (hmal : malformedPayload payload = true)
    (hdmal : malformedDeletePayload d = true)
    (hids : ∀ q ∈ pprev, q._id ≠ none) :
    (onPostCreated payload prev = .ok prev ∧
      onPostUpdated payload prev = .ok prev ∧
      onPostDeleted d prev = .ok prev) ∧
    (Profile.handlePostCreatedOnSocket Payload.null u pprev =
        .error "TypeError: cannot read user of null" ∧
      Profile.handlePostUpdatedOnSocket Payload.null u pprev =
        .error "TypeError: cannot read user of null" ∧
      Profile.handlePostDeletedOnSocket Payload.null pprev =
        .error "TypeError: cannot destructure null") ∧
    Profile.handlePostCreatedOnSocket (Payload.obj ⟨none, content, some u⟩)
        u pprev = .ok (⟨none, content, some u⟩ :: pprev) := by
  refine ⟨⟨?_, ?_, ?_⟩, ⟨rfl, rfl, rfl⟩, ?_⟩
  · cases payload with
    | null => rfl
    | obj p =>
      obtain ⟨pid, pc, pu⟩ := p
      cases pid with
      | none => rfl
      | some id =>
        have h : id = "" := by
          simpa [malformedPayload, idFalsy] using hmal
        subst h
        rfl
  · cases payload with
    | null => rfl
    | obj p =>
      obtain ⟨pid, pc, pu⟩ := p
      cases pid with
      | none => rfl
      | some id =>
        have h : id = "" := by
          simpa [malformedPayload, idFalsy] using hmal
        subst h
        rfl
  · cases d with
    | null => rfl
    | str s =>
      have h : s = "" := by simpa [malformedDeletePayload] using hdmal
      subst h
      rfl
    | obj oid =>
      cases oid with
      | none => rfl
      | some id =>
        have h : id = "" := by
          simpa [malformedDeletePayload, idFalsy] using hdmal
        subst h
        rfl
  · have hany : (pprev.any fun q => q._id == (none : Option String)) = false := by
      rw [List.any_eq_false]
      intro q hq
      simp only [beq_iff_eq]
      exact hids q hq
    simp [Profile.handlePostCreatedOnSocket, hany]

/-- Witness for `malformed_payloads`: a `null` created payload leaves an
empty feed list empty, and an identifier-less created payload with a
matching owner is prepended on the profile screen. -/
theorem malformed_payloads_witness :
    onPostCreated Payload.null [] = .ok [] ∧
    Profile.handlePostCreatedOnSocket (Payload.obj ⟨none, "hello", some "u1"⟩)
        "u1" [⟨some "a", "x", some "u1"⟩] =
      .ok [⟨none, "hello", some "u1"⟩, ⟨some "a", "x", some "u1"⟩] :=
  ⟨(malformed_payloads Payload.null DeletePayload.null [] [⟨some "a", "x",
      some "u1"⟩] "u1" "hello" (by decide) (by decide) (by decide)).1.1,
   (malformed_payloads Payload.null DeletePayload.null [] [⟨some "a", "x",
      some "u1"⟩] "u1" "hello" (by decide) (by decide) (by decide)).2.2⟩

/-! ## C10: the post-card edit operation -/

/-- JS `String.prototype.trim`: strip leading and trailing whitespace. -/
def jsTrim (s : String) : String :=
  String.mk (((s.data.dropWhile Char.isWhitespace).reverse.dropWhile
    Char.isWhitespace).reverse)

/-- The observable outcome of `PostCard.jsx` `handleEdit` (lines 99–145):
whether (and with what body content) the `PUT /posts/:id` request was
issued, whether editing was closed (`setIsEditing(false)`), whether an
alert was raised, and whether `onPostUpdated` was invoked. -/
structure EditOutcome where
  requestBody : Option String
  editingClosed : Bool
  alerted : Bool
  postUpdatedCalled : Bool
  deriving DecidableEq, Repr

/-- The `PostCard.jsx` `handleEdit`: empty or unchanged trimmed content closes
editing with no request; trimmed content over 5000 characters alerts with
no request; a missing token throws before the request and is caught into
an alert; otherwise the `PUT` is issued with the trimmed content, and on
success `onPostUpdated` fires and editing closes. -/
def handleEdit (editContent postContent : String) (token : Option String)
    (requestSucceeds : Bool) : EditOutcome :=
  let trimmedContent := jsTrim editContent
  if trimmedContent = "" ∨ trimmedContent = postContent then
    { requestBody := none, editingClosed := true, alerted := false,
      postUpdatedCalled := false }
  else if trimmedContent.length > 5000 then
    { requestBody := none, editingClosed := false, alerted := true,
      postUpdatedCalled := false }
  else
    match token with
    | none =>
      { requestBody := none, editingClosed := false, alerted := true,
        postUpdatedCalled := false }
    | some _ =>
      if requestSucceeds then
        { requestBody := some trimmedContent, editingClosed := true,
          alerted := false, postUpdatedCalled := true }
      else
        { requestBody := some trimmedContent, editingClosed := false,
          alerted := true, postUpdatedCalled := false }

/-- The save button guard of `PostCard.jsx` (line 288):
`disabled={isSaving || !editContent.trim() || editContent === post.content}`. -/
def saveButtonDisabled (isSaving : Bool) (editContent postContent : String) :
    Bool :=
  isSaving || jsTrim editContent == "" || editContent == postContent

/-- C10: empty or unchanged trimmed content closes editing with no request
and no post mutation; trimmed content over 5000 characters never issues the
request and never mutates the post; and a `PUT` is issued only with the
trimmed content, non-empty, different from the current content, and at
most 5000 characters.  (The save button is moreover disabled when the raw
content equals the current content.) -/
theorem edit_guards (editContent postContent : String) (token : Option String)
    (ok : Bool) :
    ((jsTrim editContent = "" ∨ jsTrim editContent = postContent) →
      handleEdit editContent postContent token ok =
        { requestBody := none, editingClosed := true, alerted := false,
          postUpdatedCalled := false }) ∧
    ((jsTrim editContent).length > 5000 →
      (handleEdit editContent postContent token ok).requestBody = none ∧
      (handleEdit editContent postContent token ok).postUpdatedCalled = false) ∧
    (∀ c, (handleEdit editContent postContent token ok).requestBody = some c →
      c = jsTrim editContent ∧ c ≠ "" ∧ c ≠ postContent ∧ c.length ≤ 5000) ∧
    (editContent = postContent →
      saveButtonDisabled false editContent postContent = true) := by
  refine ⟨?_, ?_, ?_, ?_⟩
  · intro h
    unfold handleEdit
    rw [if_pos h]
  · intro h
    by_cases h1 : jsTrim editContent = "" ∨ jsTrim editContent = postContent
    · unfold handleEdit
      rw [if_pos h1]
      exact ⟨rfl, rfl⟩
    · unfold handleEdit
      rw [if_neg h1, if_pos h]
      exact ⟨rfl, rfl⟩
  · intro c hc
    by_cases h1 : jsTrim editContent = "" ∨ jsTrim editContent = postContent
    · unfold handleEdit at hc
      rw [if_pos h1] at hc
      cases hc
    · by_cases h2 : (jsTrim editContent).length > 5000
      · unfold handleEdit at hc
        rw [if_neg h1, if_pos h2] at hc
        cases hc
      · cases token with
        | none =>
          unfold handleEdit at hc
          rw [if_neg h1, if_neg h2] at hc
          cases hc
        | some tok =>
          unfold handleEdit at hc
          rw [if_neg h1, if_neg h2] at hc
          push_neg at h1
          cases ok with
          | true =>
            simp only [Except.ok.injEq] at hc
            cases hc
            exact ⟨rfl, h1.1, h1.2, by omega⟩
          | false =>
            simp only at hc
            cases hc
            exact ⟨rfl, h1.1, h1.2, by omega⟩
  · intro h
    simp [saveButtonDisabled, h]

/-- Witness for `edit_guards`: whitespace-only content closes editing with
no request, and the issued body for a real edit is the trimmed content. -/
theorem edit_guards_witness :
    handleEdit "   " "x" (some "tok") true =
      { requestBody := none, editingClosed := true, alerted := false,
        postUpdatedCalled := false } ∧
    "hello" ≠ "x" ∧ "hello".length ≤ 5000 :=
  ⟨(edit_guards "   " "x" (some "tok") true).1 (Or.inl (by decide)),
   ((edit_guards " hello " "x" (some "tok") true).2.2.1 "hello"
      (by decide)).2.2⟩

end DemoClient
